import Mathlib

/-!
Shallow embedding of the per-agent AI core of the `bf6-portal-bots-brain`
repository: the TTL blackboard (`CoreAI_MemoryManager`), the throttled
sensor/action/behavior tick wrappers, the utility task selector
(`CoreAI_TaskSelector.chooseNextBehavior`), the behavior controller
transition (`CoreAI_BehaviorController.change`), the base profile scoring
table, and the fight / closest-enemy / capture-point sensors.

JS conventions made explicit in the embedding:
  * machine numbers become `ℚ` (and `ℝ` where the source computes
    `Math.exp`); the source never relies on float rounding here;
  * a JS object reference becomes a `Nat` identity; `===` on objects
    becomes equality of identities (allocations receive fresh identities);
  * a JS value that may be `null`/`false`/an object/a vector becomes the
    inductive `MVal`; the loose check `value == null` is `MVal.vnull`,
    truthiness is `MVal.truthy`;
  * `new` allocation and `Math.random()` are hidden inputs of a call; they
    are made explicit as a `JsEnv` argument (next fresh identity, next
    uniform draw).
-/

/-- Keys of the fixed memory schema `CoreAI_MemoryFields`. -/
inductive MKey
  | closestEnemy
  | vehicleToDrive
  | isInBattle
  | roamPos
  | arrivedPos
  | capturePoint
deriving DecidableEq, Repr

/-- A point/vector value (components over `α`). -/
structure Vec3 (α : Type) where
  x : α
  y : α
  z : α
deriving DecidableEq, Repr

/-- A value stored in a memory field: `null`, a boolean, an object
reference (player / vehicle / capture point, by identity), or a point. -/
inductive MVal
  | vnull
  | vbool (b : Bool)
  | vref (id : Nat)
  | vvec (v : Vec3 ℚ)
deriving DecidableEq, Repr

/-- JS truthiness of a stored value (`null` and `false` are falsy;
objects and vectors are truthy). -/
def MVal.truthy : MVal → Bool
  | .vnull => false
  | .vbool b => b
  | .vref _ => true
  | .vvec _ => true

/-- The blackboard `CoreAI_MemoryManager`: unified tick time, one value
per schema key, and the TTL expiration registry (the `Map` becomes a
per-key `Option` of the absolute expiry time). -/
structure CoreAI_MemoryManager where
  time : ℚ
  data : MKey → MVal
  expirations : MKey → Option ℚ

namespace CoreAI_MemoryManager

/-- The freshly constructed / `reset()` field contents: `null` everywhere
except `isInBattle = false`. -/
def emptyData : MKey → MVal
  | .isInBattle => .vbool false
  | _ => .vnull

/-- A freshly constructed manager (time 0, empty fields, no expiries). -/
def init : CoreAI_MemoryManager :=
  { time := 0, data := emptyData, expirations := fun _ => none }

/-- The JS guard `!ttlMs || ttlMs <= 0` on the optional TTL argument:
absent, zero, or non-positive. -/
def ttlAbsent : Option ℚ → Bool
  | none => true
  | some t => decide (t ≤ 0)

/-- Embeds `set(key, value, ttlMs?)`: store the value; if `value == null` or the
TTL is absent/non-positive, delete any expiry for the key, otherwise
record `time + ttlMs` as the key's expiry. -/
def set (m : CoreAI_MemoryManager) (key : MKey) (value : MVal)
    (ttlMs : Option ℚ) : CoreAI_MemoryManager :=
  let data := fun k => if k = key then value else m.data k
  if value = .vnull ∨ ttlAbsent ttlMs then
    { m with
      data := data
      expirations := fun k => if k = key then none else m.expirations k }
  else
    { m with
      data := data
      expirations := fun k =>
        if k = key then some (m.time + ttlMs.getD 0) else m.expirations k }

/-- Embeds `get(key)`: return the stored value, no side effect. -/
def get (m : CoreAI_MemoryManager) (key : MKey) : MVal :=
  m.data key

/-- Embeds `has(key)`: the stored value is neither `null` nor `false` (the
source also excludes `undefined`, which the schema never stores). -/
def has (m : CoreAI_MemoryManager) (key : MKey) : Bool :=
  m.data key ≠ .vnull && m.data key ≠ .vbool false

/-- Embeds `clear(key)`: null the value and delete any expiry. -/
def clear (m : CoreAI_MemoryManager) (key : MKey) : CoreAI_MemoryManager :=
  { m with
    data := fun k => if k = key then .vnull else m.data k
    expirations := fun k => if k = key then none else m.expirations k }

/-- Embeds `getTimeRemaining(key)`: `max 0 (expiry − time)`, `0` when no expiry
is recorded. -/
def getTimeRemaining (m : CoreAI_MemoryManager) (key : MKey) : ℚ :=
  match m.expirations key with
  | none => 0
  | some exp => if exp - m.time > 0 then exp - m.time else 0

/-- Embeds `prune()`: every key whose recorded expiry satisfies `now >= exp` is
nulled and its expiry entry deleted; every other key is untouched. (The
source iterates the `Map`, deleting only the entry under iteration, so
the per-key functional form is faithful.) -/
def prune (m : CoreAI_MemoryManager) : CoreAI_MemoryManager :=
  { m with
    data := fun k =>
      match m.expirations k with
      | some exp => if exp ≤ m.time then .vnull else m.data k
      | none => m.data k
    expirations := fun k =>
      match m.expirations k with
      | some exp => if exp ≤ m.time then none else some exp
      | none => none }

/-- Embeds `reset()`: zero the clock and restore the empty defaults. -/
def reset (_m : CoreAI_MemoryManager) : CoreAI_MemoryManager := init

end CoreAI_MemoryManager

/-- Throttle state of `CoreAI_ASensor`: the fixed polling interval
`updateRate` (ms) and the last-fired timestamp `lastUpdate`. -/
structure CoreAI_ASensor_State where
  updateRate : ℚ
  lastUpdate : ℚ
deriving DecidableEq, Repr

namespace CoreAI_ASensor

/-- Embeds `ASensor.tick(ctx)`: no-op while `now − lastUpdate < updateRate`;
no-op (without touching `lastUpdate`) when the player is invalid;
otherwise record `lastUpdate = now` and invoke `update`. The returned
`Bool` reports whether `update(ctx)` was invoked. -/
def tick (st : CoreAI_ASensor_State) (now : ℚ) (playerValid : Bool) :
    CoreAI_ASensor_State × Bool :=
  if now - st.lastUpdate < st.updateRate then (st, false)
  else if !playerValid then (st, false)
  else ({ st with lastUpdate := now }, true)

/-- Embeds `ASensor.reset()`: force immediate eligibility. -/
def reset (st : CoreAI_ASensor_State) : CoreAI_ASensor_State :=
  { st with lastUpdate := 0 }

/-- Run a sequence of `tick` calls, each given a time and a validity
flag; the second component reports whether any call invoked `update`. -/
def run (st : CoreAI_ASensor_State) :
    List (ℚ × Bool) → CoreAI_ASensor_State × Bool
  | [] => (st, false)
  | (t, v) :: rest =>
    let step := tick st t v
    let more := run step.1 rest
    (more.1, step.2 || more.2)

end CoreAI_ASensor

/-- Throttle state of `CoreAI_AAction`: interval `intervalMs` and the
last-run timestamp `lastRun`. -/
structure CoreAI_AAction_State where
  intervalMs : ℚ
  lastRun : ℚ
deriving DecidableEq, Repr

namespace CoreAI_AAction

/-- Embeds `AAction.tick(ctx)`: no-op while `intervalMs > 0` and
`now − lastRun < intervalMs`; otherwise record `lastRun = now` and
invoke `update` (the returned `Bool`). -/
def tick (st : CoreAI_AAction_State) (now : ℚ) :
    CoreAI_AAction_State × Bool :=
  if 0 < st.intervalMs ∧ now - st.lastRun < st.intervalMs then (st, false)
  else ({ st with lastRun := now }, true)

/-- Run a sequence of `tick` calls; the second component reports whether
any call invoked `update`. -/
def run (st : CoreAI_AAction_State) :
    List ℚ → CoreAI_AAction_State × Bool
  | [] => (st, false)
  | t :: rest =>
    let step := tick st t
    let more := run step.1 rest
    (more.1, step.2 || more.2)

end CoreAI_AAction

/-- Throttle state of `CoreAI_ABehavior`: interval `intervalMs` (zero
means unthrottled) and `lastUpdateTime`. -/
structure CoreAI_ABehavior_State where
  intervalMs : ℚ
  lastUpdateTime : ℚ
deriving DecidableEq, Repr

namespace CoreAI_ABehavior

/-- Embeds `ABehavior.tick()`: when `intervalMs > 0`, no-op while
`now − lastUpdateTime < intervalMs` and otherwise stamp
`lastUpdateTime = now`; then invoke `update` (the returned `Bool`). -/
def tick (st : CoreAI_ABehavior_State) (now : ℚ) :
    CoreAI_ABehavior_State × Bool :=
  if 0 < st.intervalMs then
    if now - st.lastUpdateTime < st.intervalMs then (st, false)
    else ({ st with lastUpdateTime := now }, true)
  else (st, true)

/-- Run a sequence of `tick` calls; the second component reports whether
any call invoked `update`. -/
def run (st : CoreAI_ABehavior_State) :
    List ℚ → CoreAI_ABehavior_State × Bool
  | [] => (st, false)
  | t :: rest =>
    let step := tick st t
    let more := run step.1 rest
    (more.1, step.2 || more.2)

end CoreAI_ABehavior

/-- The concrete behavior classes of the repository (constructor
identity, used by `current.constructor === behaviorClass` and
`instanceof`). -/
inductive BehaviorClass
  | Idle
  | Fight
  | Defend
  | MoveTo
  | EnterVehicle
deriving DecidableEq, Repr

/-- Movement speeds passed to `CoreAI_MoveToBehavior`. -/
inductive MoveSpeed
  | Sprint
  | Run
  | InvestigateRun
deriving DecidableEq, Repr

/-- A behavior instance: a JS object identity `id` (allocations receive
fresh identities, so `===` is equality), its class, and the constructor
payload of the concrete behaviors (`MoveTo(pos, speed, validated?)`,
`EnterVehicle(vehicle, seat, maxDist)`, `Defend(pos, min, max)`). Unused
payload fields are `none`. -/
structure BehaviorInst where
  id : Nat
  cls : BehaviorClass
  targetPos : Option (Vec3 ℚ) := none
  speed : Option MoveSpeed := none
  vehicle : Option Nat := none
  seat : Option Nat := none
  minDist : Option ℚ := none
  maxDist : Option ℚ := none
  validated : Option Bool := none
deriving DecidableEq, Repr

/-- The hidden JS inputs of one call: the identity the next `new`
allocation receives, and the value the next `Math.random()` returns. -/
structure JsEnv where
  freshId : Nat
  rand : ℚ
deriving DecidableEq, Repr

/-- Embeds `new CoreAI_IdleBehavior(brain)`. -/
def mkIdle (env : JsEnv) : BehaviorInst :=
  { id := env.freshId, cls := .Idle }

/-- Embeds `new CoreAI_FightBehavior(brain)`. -/
def mkFight (env : JsEnv) : BehaviorInst :=
  { id := env.freshId, cls := .Fight }

/-- External-engine world queries consumed by the base profile's scoring
closures (geometry is part of the engine capability surface, so the
distance function is world data). -/
structure ProfileWorld where
  playerPos : Nat → Vec3 ℚ
  soldierPos : Nat → Vec3 ℚ
  vehiclePos : Nat → Vec3 ℚ
  distanceBetween : Vec3 ℚ → Vec3 ℚ → ℚ

/-- The brain state visible to scoring closures: the memory snapshot,
the engine world, and the agent. -/
structure BrainView where
  memory : CoreAI_MemoryManager
  world : ProfileWorld
  player : Nat

/-- Embeds `CoreAI_ITaskScoringEntry`: score function, optional behavior-class
resolver, optional stability predicate, and the instance factory (the
factory takes the `JsEnv` because `new` and `Math.random()` occur inside
it). -/
structure CoreAI_ITaskScoringEntry where
  score : BrainView → ℚ
  behaviorClass : Option (BrainView → BehaviorClass) := none
  isSame : Option (BrainView → BehaviorInst → Bool) := none
  factory : BrainView → JsEnv → BehaviorInst

namespace CoreAI_TaskSelector

/-- The scoring loop of `chooseNextBehavior`: fold over the table with
accumulator `(bestEntry, bestScore)` starting at `(null, -Infinity)`,
updating on a strictly greater score. -/
def bestLoop (brain : BrainView) :
    List CoreAI_ITaskScoringEntry →
    Option CoreAI_ITaskScoringEntry × WithBot ℚ →
    Option CoreAI_ITaskScoringEntry × WithBot ℚ
  | [], acc => acc
  | e :: rest, (be, bs) =>
    let s := e.score brain
    if bs < (s : WithBot ℚ) then bestLoop brain rest (some e, (s : WithBot ℚ))
    else bestLoop brain rest (be, bs)

/-- The `!bestEntry || bestScore <= 0` branch: reuse the current
instance when it is an `CoreAI_IdleBehavior`, else allocate a fresh
Idle. -/
def idleFallback (current : BehaviorInst) (env : JsEnv) : BehaviorInst :=
  if current.cls = .Idle then current else mkIdle env

/-- The post-selection part of `chooseNextBehavior`: resolve the winning
entry's behavior class; when it matches the current instance's exact
class and the stability predicate (defaulting to true when absent)
holds, keep the current instance; otherwise call the entry's factory. -/
def resolveWinner (e : CoreAI_ITaskScoringEntry) (brain : BrainView)
    (current : BehaviorInst) (env : JsEnv) : BehaviorInst :=
  match e.behaviorClass with
  | none => e.factory brain env
  | some resolve =>
    if current.cls = resolve brain then
      if (match e.isSame with
          | some p => p brain current
          | none => true) then current
      else e.factory brain env
    else e.factory brain env

/-- Embeds `CoreAI_TaskSelector.chooseNextBehavior()`, with the current
behavior instance (read from the controller in the source) and the
hidden JS inputs passed explicitly. -/
def chooseNextBehavior (scoring : List CoreAI_ITaskScoringEntry)
    (brain : BrainView) (current : BehaviorInst) (env : JsEnv) :
    BehaviorInst :=
  match bestLoop brain scoring (none, ⊥) with
  | (none, _) => idleFallback current env
  | (some e, bs) =>
    if bs ≤ 0 then idleFallback current env
    else resolveWinner e brain current env

end CoreAI_TaskSelector

/-- Lifecycle calls emitted by a behavior transition. -/
inductive LifecycleEvent
  | exits (b : BehaviorInst)
  | enters (b : BehaviorInst)
deriving DecidableEq, Repr

namespace CoreAI_BehaviorController

/-- Embeds `BehaviorController.change(next)`: no-op when `next` is the same
instance as the current one; otherwise `exit()` the current behavior,
install `next`, and `enter()` it. Returns the new current instance and
the lifecycle calls made. -/
def change (current next : BehaviorInst) :
    BehaviorInst × List LifecycleEvent :=
  if current = next then (current, [])
  else (next, [.exits current, .enters next])

end CoreAI_BehaviorController

/-- Project a stored reference value to its object identity. -/
def MVal.refId : MVal → Option Nat
  | .vref i => some i
  | _ => none

/-- Project a stored point value to its vector. -/
def MVal.vec : MVal → Option (Vec3 ℚ)
  | .vvec v => some v
  | _ => none

/-- Embeds `MoveToBehavior.getTargetPos()` (every constructed MoveTo instance
carries a target position; the default covers the other classes). -/
def BehaviorInst.getTargetPos (b : BehaviorInst) : Vec3 ℚ :=
  b.targetPos.getD ⟨0, 0, 0⟩

/-- Embeds `new CoreAI_MoveToBehavior(brain, pos, speed[, validated])`. -/
def mkMoveTo (env : JsEnv) (pos : Vec3 ℚ) (speed : MoveSpeed)
    (validated : Option Bool) : BehaviorInst :=
  { id := env.freshId, cls := .MoveTo, targetPos := some pos,
    speed := some speed, validated := validated }

/-- Embeds `new CoreAI_EnterVehicleBehavior(brain, vehicle, seat, maxDist)`. -/
def mkEnterVehicle (env : JsEnv) (vehicle seat : Nat) (maxDist : ℚ) :
    BehaviorInst :=
  { id := env.freshId, cls := .EnterVehicle, vehicle := some vehicle,
    seat := some seat, maxDist := some maxDist }

/-- Embeds `new CoreAI_DefendBehavior(brain, pos, minDist, maxDist)`. -/
def mkDefend (env : JsEnv) (pos : Vec3 ℚ) (minDist maxDist : ℚ) :
    BehaviorInst :=
  { id := env.freshId, cls := .Defend, targetPos := some pos,
    minDist := some minDist, maxDist := some maxDist }

namespace CoreAI_BaseProfile

/-- Embeds `getVehicleToDriveInfo(brain)` of the base profile: `null` when the
`vehicleToDrive` field is falsy, else the vehicle, its position, and the
distance from the agent to it. -/
def getVehicleToDriveInfo (brain : BrainView) :
    Option (Nat × Vec3 ℚ × ℚ) :=
  match (brain.memory.get .vehicleToDrive).refId with
  | none => none
  | some vehicle =>
    let vPos := brain.world.vehiclePos vehicle
    some (vehicle, vPos,
      brain.world.distanceBetween (brain.world.playerPos brain.player) vPos)

/-- Row 1: `isInBattle ? 200 : 0` → `CoreAI_FightBehavior`. -/
def fightEntry : CoreAI_ITaskScoringEntry where
  score := fun brain => if (brain.memory.get .isInBattle).truthy then 200 else 0
  behaviorClass := some fun _ => .Fight
  factory := fun _ env => mkFight env

/-- Row 2: `closestEnemy ? 150 : 0` → move to the enemy's position;
stable iff the current MoveTo target is at distance ≤ 0 from it. -/
def closestEnemyEntry : CoreAI_ITaskScoringEntry where
  score := fun brain =>
    if (brain.memory.get .closestEnemy).truthy then 150 else 0
  behaviorClass := some fun _ => .MoveTo
  isSame := some fun brain current =>
    if current.cls ≠ .MoveTo then false
    else
      match (brain.memory.get .closestEnemy).refId with
      | none => false
      | some enemy =>
        brain.world.distanceBetween current.getTargetPos
          (brain.world.soldierPos enemy) ≤ 0
  factory := fun brain env =>
    let enemy := ((brain.memory.get .closestEnemy).refId).getD 0
    mkMoveTo env (brain.world.soldierPos enemy) .InvestigateRun none

/-- Row 3: `vehicleToDrive ? 290 : 0` → enter the vehicle when within
5.0, else move to it (with a random sprint/run draw in the factory). -/
def vehicleToDriveEntry : CoreAI_ITaskScoringEntry where
  score := fun brain =>
    if (brain.memory.get .vehicleToDrive).truthy then 290 else 0
  behaviorClass := some fun brain =>
    match getVehicleToDriveInfo brain with
    | none => .MoveTo
    | some (_, _, dist) => if dist ≤ 5 then .EnterVehicle else .MoveTo
  isSame := some fun brain current =>
    match getVehicleToDriveInfo brain with
    | none => false
    | some (_, vPos, dist) =>
      if current.cls = .EnterVehicle then decide (dist ≤ 5)
      else if current.cls = .MoveTo then
        if dist ≤ 5 then false
        else brain.world.distanceBetween current.getTargetPos vPos ≤ 0
      else false
  factory := fun brain env =>
    match getVehicleToDriveInfo brain with
    | none => mkMoveTo env ⟨0, 0, 0⟩ .Run none
    | some (vehicle, vPos, dist) =>
      if dist ≤ 5 then mkEnterVehicle env vehicle 0 5
      else
        mkMoveTo env vPos
          (if env.rand < 7/10 then .Sprint else .Run) (some false)

/-- Row 4: `arrivedPos ? 120 : 0` → defend the arrived position. -/
def arrivedPosEntry : CoreAI_ITaskScoringEntry where
  score := fun brain =>
    if (brain.memory.get .arrivedPos).truthy then 120 else 0
  behaviorClass := some fun _ => .Defend
  factory := fun brain env =>
    mkDefend env (((brain.memory.get .arrivedPos).vec).getD ⟨0, 0, 0⟩) 2 8

/-- Row 5: `roamPos ? 20 : 0` → move to the roam position; stable iff
the current MoveTo target is at distance ≤ 0 from it. -/
def roamPosEntry : CoreAI_ITaskScoringEntry where
  score := fun brain => if (brain.memory.get .roamPos).truthy then 20 else 0
  behaviorClass := some fun _ => .MoveTo
  isSame := some fun brain current =>
    if current.cls ≠ .MoveTo then false
    else
      match (brain.memory.get .roamPos).vec with
      | none => false
      | some roamPos =>
        brain.world.distanceBetween current.getTargetPos roamPos ≤ 0
  factory := fun brain env =>
    mkMoveTo env (((brain.memory.get .roamPos).vec).getD ⟨0, 0, 0⟩)
      (if env.rand < 3/10 then .Sprint else .Run) none

/-- The base profile's scoring table, in source order. -/
def scoring : List CoreAI_ITaskScoringEntry :=
  [fightEntry, closestEnemyEntry, vehicleToDriveEntry, arrivedPosEntry,
   roamPosEntry]

end CoreAI_BaseProfile

/-- Embeds `mod.Add` on vectors. -/
def Vec3.add (a b : Vec3 ℚ) : Vec3 ℚ := ⟨a.x + b.x, a.y + b.y, a.z + b.z⟩

/-- Embeds `mod.Multiply` of a vector by a scalar. -/
def Vec3.scale (c : ℚ) (a : Vec3 ℚ) : Vec3 ℚ := ⟨c * a.x, c * a.y, c * a.z⟩

/-- External-engine queries consumed by `CoreAI_FightSensor` (team ids
via `GetObjId(GetTeam(·))`, vehicle lookup via
`GetVehicleFromPlayer` / `GetVehicleState`, and the geometry
primitives). -/
structure FightWorld where
  isPlayerValid : Nat → Bool
  isFiring : Nat → Bool
  isInVehicle : Nat → Bool
  vehicleSeat : Nat → Nat
  teamId : Nat → Nat
  isAlive : Nat → Bool
  eyePos : Nat → Vec3 ℚ
  soldierPos : Nat → Vec3 ℚ
  vehicleOf : Nat → Nat
  vehiclePos : Nat → Vec3 ℚ
  allPlayers : List Nat
  closestPlayerTo : Vec3 ℚ → Nat → Nat
  distanceBetween : Vec3 ℚ → Vec3 ℚ → ℚ
  directionTowards : Vec3 ℚ → Vec3 ℚ → Vec3 ℚ

namespace CoreAI_FightSensor

/-- Embeds `private VEHICLE_OFFSET = 5.1`. -/
def VEHICLE_OFFSET : ℚ := 51/10

/-- A `mod.RayCast(shooter, start, target)` command issued this tick. -/
structure RayCastCmd where
  shooter : Nat
  start : Vec3 ℚ
  target : Vec3 ℚ
deriving DecidableEq, Repr

/-- Embeds `FightSensor.update(ctx)`: no-op while `isInBattle` is truthy or the
player is invalid; set `isInBattle = true` with TTL when firing; when
driving (seat 0 of a vehicle), raycast from just outside the vehicle
toward every living enemy (eye position, or vehicle position + 1y for a
seated enemy). Returns the memory and the raycasts issued. -/
def update (w : FightWorld) (ttlMs : ℚ) (player : Nat)
    (m : CoreAI_MemoryManager) : CoreAI_MemoryManager × List RayCastCmd :=
  if (m.get .isInBattle).truthy then (m, [])
  else if !w.isPlayerValid player then (m, [])
  else if w.isFiring player then
    (m.set .isInBattle (.vbool true) (some ttlMs), [])
  else if !w.isInVehicle player || w.vehicleSeat player ≠ 0 then (m, [])
  else
    let myTeamId := w.teamId player
    let pv := w.vehiclePos (w.vehicleOf player)
    let startInit : Vec3 ℚ := ⟨pv.x, pv.y + 1, pv.z⟩
    let rays := w.allPlayers.filterMap fun p =>
      if !w.isPlayerValid p then none
      else if w.teamId p = myTeamId then none
      else if !w.isAlive p then none
      else
        let targetPos :=
          if w.isInVehicle p then
            let ev := w.vehiclePos (w.vehicleOf p)
            (⟨ev.x, ev.y + 1, ev.z⟩ : Vec3 ℚ)
          else w.eyePos p
        let dir := w.directionTowards startInit targetPos
        some ⟨player, startInit.add (dir.scale VEHICLE_OFFSET), targetPos⟩
    (m, rays)

/-- Embeds `FightSensor.onRayCastHit(ctx, eventPoint, eventNormal)`: find the
closest enemy to the hit point; if the hit is within the tolerance
(0.4, widened to `VEHICLE_OFFSET` and measured against the enemy's
position + 1y when the enemy is seated), set `isInBattle = true` with
TTL. -/
def onRayCastHit (w : FightWorld) (ttlMs : ℚ) (player : Nat)
    (m : CoreAI_MemoryManager) (eventPoint : Vec3 ℚ) :
    CoreAI_MemoryManager :=
  if !w.isPlayerValid player then m
  else
    let myTeamId := w.teamId player
    let enemyTeam := if myTeamId = 1 then 2 else 1
    let enemy := w.closestPlayerTo eventPoint enemyTeam
    if !w.isPlayerValid enemy then m
    else
      let inVehicle := w.isInVehicle enemy
      let enemyPos :=
        if inVehicle then
          let ep := w.soldierPos enemy
          (⟨ep.x, ep.y + 1, ep.z⟩ : Vec3 ℚ)
        else w.eyePos enemy
      let maxHitDist : ℚ := if inVehicle then VEHICLE_OFFSET else 2/5
      if w.distanceBetween eventPoint enemyPos > maxHitDist then m
      else m.set .isInBattle (.vbool true) (some ttlMs)

/-- Embeds `FightSensor.onDamaged(...)`: unconditionally set `isInBattle = true`
with TTL. -/
def onDamaged (ttlMs : ℚ) (m : CoreAI_MemoryManager) :
    CoreAI_MemoryManager :=
  m.set .isInBattle (.vbool true) (some ttlMs)

end CoreAI_FightSensor

/-- External-engine queries consumed by `CoreAI_CapturePointSensor`. -/
structure CaptureWorld where
  isPlayerValid : Nat → Bool
  allCapturePoints : List Nat

namespace CoreAI_CapturePointSensor

/-- Embeds `CapturePointSensor.update(ctx)`: iterate all capture points with
`closest` starting at `null`; the entire candidate-selection body of the
loop is commented out in the source, so `closest` is never assigned;
then write `closest` with TTL when non-null, else `set('capturePoint',
null)` (no TTL argument). -/
def update (w : CaptureWorld) (ttlMs : ℚ) (player : Nat)
    (m : CoreAI_MemoryManager) : CoreAI_MemoryManager :=
  if !w.isPlayerValid player then m
  else
    let closest : Option Nat :=
      w.allCapturePoints.foldl (fun acc _cp => acc) none
    match closest with
    | some cp => m.set .capturePoint (.vref cp) (some ttlMs)
    | none => m.set .capturePoint .vnull none

end CoreAI_CapturePointSensor

/-- External-engine queries consumed by `CoreAI_ClosestEnemySensor`
(positions and distances as reals, since the sensor feeds them to
`Math.exp`). -/
structure EnemyWorld where
  isPlayerValid : Nat → Bool
  objectPos : Nat → Vec3 ℝ
  teamId : Nat → Nat
  closestPlayerTo : Vec3 ℝ → Nat → Nat
  distanceBetween : Vec3 ℝ → Vec3 ℝ → ℝ

namespace CoreAI_ClosestEnemySensor

/-- The probabilistic detection gate's probability:
`Math.exp(-0.12 * dist * (1.0 / sensitivity))`. -/
noncomputable def detectionProb (dist sensitivity : ℝ) : ℝ :=
  Real.exp (-(12/100) * dist * (1 / sensitivity))

/-- Embeds `ClosestEnemySensor.update(ctx)`: clear `closestEnemy` (no TTL) when
no valid nearest enemy exists; no-op when the nearest enemy `===` the
stored one; otherwise compute the detection probability from the
distance and write the enemy with TTL unless the uniform draw exceeds
the probability. -/
noncomputable def update (w : EnemyWorld) (sensitivity : ℝ) (ttlMs : ℚ)
    (player : Nat) (m : CoreAI_MemoryManager) (rand : ℝ) :
    CoreAI_MemoryManager :=
  if !w.isPlayerValid player then m
  else
    let myPos := w.objectPos player
    let enemyTeamId := if w.teamId player = 1 then 2 else 1
    let newEnemy := w.closestPlayerTo myPos enemyTeamId
    if !w.isPlayerValid newEnemy then m.set .closestEnemy .vnull none
    else if m.get .closestEnemy = .vref newEnemy then m
    else
      let dist := w.distanceBetween myPos (w.objectPos newEnemy)
      if rand > detectionProb dist sensitivity then m
      else m.set .closestEnemy (.vref newEnemy) (some ttlMs)

end CoreAI_ClosestEnemySensor

/-- C1 (counterexample): `set('isInBattle', false, 500)` on a fresh
memory leaves an expiry entry for `isInBattle`, because the guard
`value == null` does not match `false`, so the claimed
"empty value always clears the expiry regardless of ttl" fails for the
boolean field. -/
theorem set_false_keeps_expiry_cex :
    (CoreAI_MemoryManager.init.set .isInBattle (.vbool false)
      (some 500)).expirations .isInBattle ≠ none := by
  decide

/-- C1 (amended): `set(k, null, ttl)` stores `null` and removes any
expiry for `k` regardless of the ttl argument; but for the boolean
field, `set('isInBattle', false, ttl)` with ttl > 0 stores `false` and
records an expiry at `time + ttl`. -/
theorem set_empty_spec (m : CoreAI_MemoryManager) (k : MKey)
    (ttl : Option ℚ) :
    ((m.set k .vnull ttl).data k = .vnull ∧
      (m.set k .vnull ttl).expirations k = none) ∧
    ∀ t : ℚ, ttl = some t → 0 < t →
      (m.set k (.vbool false) ttl).data k = .vbool false ∧
      (m.set k (.vbool false) ttl).expirations k = some (m.time + t) := by
  constructor
  · simp [CoreAI_MemoryManager.set]
  · intro t ht hpos
    subst ht
    have habs : CoreAI_MemoryManager.ttlAbsent (some t) = false := by
      simp [CoreAI_MemoryManager.ttlAbsent, not_le.mpr hpos]
    simp [CoreAI_MemoryManager.set, habs]

/-- C1 (witness for the amended theorem). -/
theorem set_empty_spec_witness :
    ((CoreAI_MemoryManager.init.set .roamPos .vnull (some 2000)).data
        .roamPos = .vnull ∧
      (CoreAI_MemoryManager.init.set .roamPos .vnull
        (some 2000)).expirations .roamPos = none) ∧
    (CoreAI_MemoryManager.init.set .isInBattle (.vbool false)
        (some 500)).data .isInBattle = .vbool false ∧
    (CoreAI_MemoryManager.init.set .isInBattle (.vbool false)
        (some 500)).expirations .isInBattle = some (0 + 500) :=
  ⟨(set_empty_spec CoreAI_MemoryManager.init .roamPos (some 2000)).1,
    (set_empty_spec CoreAI_MemoryManager.init .isInBattle (some 500)).2
      500 rfl (by norm_num)⟩

/-- C3: `prune()` empties exactly the keys whose recorded expiry is ≤
the current time and deletes their expiry entries, leaving every other
key's value and expiry unchanged; the data outcome of `set`/`clear` does
not depend on the clock (so, among the mutators, only `prune` empties a
field because time advanced); and in the concrete scenario,
`set('roamPos', p, 2000)` at time 0 followed by advancing the clock to
2001 and pruning makes `has('roamPos')` false. -/
theorem prune_spec (m : CoreAI_MemoryManager) :
    (∀ k, match m.expirations k with
      | some exp =>
        if exp ≤ m.time then
          m.prune.data k = .vnull ∧ m.prune.expirations k = none
        else
          m.prune.data k = m.data k ∧ m.prune.expirations k = some exp
      | none =>
        m.prune.data k = m.data k ∧ m.prune.expirations k = none) ∧
    (∀ t k v ttl,
      (({ m with time := t } : CoreAI_MemoryManager).set k v ttl).data =
        (m.set k v ttl).data) ∧
    (∀ t k,
      (({ m with time := t } : CoreAI_MemoryManager).clear k).data =
        (m.clear k).data) ∧
    (({ (CoreAI_MemoryManager.init.set .roamPos (.vvec ⟨1, 2, 3⟩)
          (some 2000)) with time := 2001 } :
        CoreAI_MemoryManager).prune.has .roamPos = false) := by
  refine ⟨fun k => ?_, fun t k v ttl => ?_, fun t k => ?_, ?_⟩
  · cases h : m.expirations k with
    | some exp =>
      by_cases hle : exp ≤ m.time <;>
        simp [CoreAI_MemoryManager.prune, h, hle]
    | none => simp [CoreAI_MemoryManager.prune, h]
  · simp only [CoreAI_MemoryManager.set]
    split <;> rfl
  · rfl
  · simp +decide only [CoreAI_MemoryManager.has, CoreAI_MemoryManager.prune,
      CoreAI_MemoryManager.set, CoreAI_MemoryManager.init,
      CoreAI_MemoryManager.ttlAbsent, CoreAI_MemoryManager.emptyData]
    norm_num

/-- C8: no operation of the fight sensor — throttled update,
`onRayCastHit`, or `onDamaged` — ever changes memory other than by
`set('isInBattle', true, ttl)`: each returns the memory unchanged or
with `isInBattle` set to `true` with the sensor's TTL, so the sensor
never writes `false` and never removes the value or its expiry. -/
theorem fightSensor_only_sets_true (w : FightWorld) (ttlMs : ℚ)
    (player : Nat) (m : CoreAI_MemoryManager) (eventPoint : Vec3 ℚ) :
    ((CoreAI_FightSensor.update w ttlMs player m).1 = m ∨
      (CoreAI_FightSensor.update w ttlMs player m).1 =
        m.set .isInBattle (.vbool true) (some ttlMs)) ∧
    (CoreAI_FightSensor.onRayCastHit w ttlMs player m eventPoint = m ∨
      CoreAI_FightSensor.onRayCastHit w ttlMs player m eventPoint =
        m.set .isInBattle (.vbool true) (some ttlMs)) ∧
    CoreAI_FightSensor.onDamaged ttlMs m =
      m.set .isInBattle (.vbool true) (some ttlMs) := by
  refine ⟨?_, ?_, rfl⟩
  · unfold CoreAI_FightSensor.update
    split_ifs <;> simp
  · unfold CoreAI_FightSensor.onRayCastHit
    dsimp only
    split_ifs <;> first | exact Or.inl rfl | exact Or.inr rfl

/-- C9: on every eligible update with a valid player, the capture-point
sensor writes `null` to `capturePoint` (its candidate loop, whose body
is commented out in the source, never selects a candidate), clearing
any previously stored value and expiry; afterwards `has('capturePoint')`
is false. -/
theorem capturePointSensor_always_clears (w : CaptureWorld) (ttlMs : ℚ)
    (player : Nat) (m : CoreAI_MemoryManager)
    (hvalid : w.isPlayerValid player = true) :
    CoreAI_CapturePointSensor.update w ttlMs player m =
      m.set .capturePoint .vnull none ∧
    (CoreAI_CapturePointSensor.update w ttlMs player m).data
      .capturePoint = .vnull ∧
    (CoreAI_CapturePointSensor.update w ttlMs player m).expirations
      .capturePoint = none ∧
    (CoreAI_CapturePointSensor.update w ttlMs player m).has
      .capturePoint = false := by
  have hfold : ∀ l : List Nat,
      l.foldl (fun (acc : Option Nat) _cp => acc) none = none := by
    intro l; induction l with
    | nil => rfl
    | cons _ _ ih => exact ih
  have hupd : CoreAI_CapturePointSensor.update w ttlMs player m =
      m.set .capturePoint .vnull none := by
    unfold CoreAI_CapturePointSensor.update
    rw [hvalid]
    simp [hfold]
  refine ⟨hupd, ?_, ?_, ?_⟩ <;>
    simp [hupd, CoreAI_MemoryManager.set, CoreAI_MemoryManager.has,
      CoreAI_MemoryManager.ttlAbsent]

/-- C9 (witness): a concrete world with three capture points and a
valid player. -/
theorem capturePointSensor_always_clears_witness :
    CoreAI_CapturePointSensor.update ⟨fun _ => true, [10, 11, 12]⟩ 3000 0
        CoreAI_MemoryManager.init =
      CoreAI_MemoryManager.init.set .capturePoint .vnull none ∧
    (CoreAI_CapturePointSensor.update ⟨fun _ => true, [10, 11, 12]⟩ 3000 0
        CoreAI_MemoryManager.init).has .capturePoint = false :=
  ⟨(capturePointSensor_always_clears ⟨fun _ => true, [10, 11, 12]⟩ 3000 0
      CoreAI_MemoryManager.init rfl).1,
    (capturePointSensor_always_clears ⟨fun _ => true, [10, 11, 12]⟩ 3000 0
      CoreAI_MemoryManager.init rfl).2.2.2⟩

/-- C10: when the throttle window has elapsed but the agent is invalid,
`ASensor.tick` neither invokes `update` nor touches `lastUpdate`, so the
sensor fires on the first subsequent tick (at any `t' ≥ t`) where the
agent is valid. -/
theorem sensor_invalid_tick_keeps_eligibility
    (st : CoreAI_ASensor_State) (t t' : ℚ)
    (helapsed : ¬ t - st.lastUpdate < st.updateRate) (hmono : t ≤ t') :
    CoreAI_ASensor.tick st t false = (st, false) ∧
    CoreAI_ASensor.tick st t' true =
      ({ st with lastUpdate := t' }, true) := by
  have helapsed' : ¬ t' - st.lastUpdate < st.updateRate := by
    intro h
    exact helapsed (by linarith)
  constructor
  · simp [CoreAI_ASensor.tick, helapsed]
  · simp [CoreAI_ASensor.tick, helapsed']

/-- C10 (witness): interval 100, last fired at 0, invalid at t = 150,
valid at t' = 200. -/
theorem sensor_invalid_tick_keeps_eligibility_witness :
    CoreAI_ASensor.tick ⟨100, 0⟩ 150 false = (⟨100, 0⟩, false) ∧
    CoreAI_ASensor.tick ⟨100, 0⟩ 200 true = (⟨100, 200⟩, true) :=
  sensor_invalid_tick_keeps_eligibility ⟨100, 0⟩ 150 200
    (by norm_num) (by norm_num)

/-- A sensor tick strictly inside the throttle window is a no-op. -/
theorem sensor_tick_in_window (st : CoreAI_ASensor_State) (t : ℚ)
    (v : Bool) (h : t - st.lastUpdate < st.updateRate) :
    CoreAI_ASensor.tick st t v = (st, false) := by
  simp [CoreAI_ASensor.tick, h]

/-- An action tick strictly inside a positive throttle window is a
no-op. -/
theorem action_tick_in_window (st : CoreAI_AAction_State) (t : ℚ)
    (hI : 0 < st.intervalMs) (h : t - st.lastRun < st.intervalMs) :
    CoreAI_AAction.tick st t = (st, false) := by
  simp [CoreAI_AAction.tick, hI, h]

/-- A behavior tick strictly inside a positive throttle window is a
no-op. -/
theorem behavior_tick_in_window (st : CoreAI_ABehavior_State) (t : ℚ)
    (hI : 0 < st.intervalMs) (h : t - st.lastUpdateTime < st.intervalMs) :
    CoreAI_ABehavior.tick st t = (st, false) := by
  simp [CoreAI_ABehavior.tick, hI, h]

/-- C5: a sensor, action, or behavior with throttle interval I > 0 whose
update last ran at t0 never invokes `update` on any sequence of tick
calls at times in [t0, t0 + I) — the state is also left unchanged — and
a tick at exactly t0 + I passes the throttle check (the sensor then
fires iff the agent is valid; action and behavior fire
unconditionally). -/
theorem throttle_window_spec (I t0 : ℚ) (hI : 0 < I) :
    (∀ ts : List (ℚ × Bool), (∀ e ∈ ts, t0 ≤ e.1 ∧ e.1 < t0 + I) →
      CoreAI_ASensor.run ⟨I, t0⟩ ts = (⟨I, t0⟩, false)) ∧
    (∀ v, CoreAI_ASensor.tick ⟨I, t0⟩ (t0 + I) v =
      if v then (⟨I, t0 + I⟩, true) else (⟨I, t0⟩, false)) ∧
    (∀ ts : List ℚ, (∀ t ∈ ts, t0 ≤ t ∧ t < t0 + I) →
      CoreAI_AAction.run ⟨I, t0⟩ ts = (⟨I, t0⟩, false)) ∧
    CoreAI_AAction.tick ⟨I, t0⟩ (t0 + I) = (⟨I, t0 + I⟩, true) ∧
    (∀ ts : List ℚ, (∀ t ∈ ts, t0 ≤ t ∧ t < t0 + I) →
      CoreAI_ABehavior.run ⟨I, t0⟩ ts = (⟨I, t0⟩, false)) ∧
    CoreAI_ABehavior.tick ⟨I, t0⟩ (t0 + I) = (⟨I, t0 + I⟩, true) := by
  have hpass : ¬ (t0 + I) - t0 < I := by linarith
  refine ⟨?_, ?_, ?_, ?_, ?_, ?_⟩
  · intro ts hts
    induction ts with
    | nil => rfl
    | cons e rest ih =>
      have he := hts e (List.mem_cons_self e rest)
      have hstep : CoreAI_ASensor.tick ⟨I, t0⟩ e.1 e.2 = (⟨I, t0⟩, false) :=
        sensor_tick_in_window ⟨I, t0⟩ e.1 e.2 (by
          have := he.2
          simp only
          linarith)
      have hrest := ih fun x hx => hts x (List.mem_cons_of_mem e hx)
      cases e with
      | mk t v => simp [CoreAI_ASensor.run, hstep, hrest]
  · intro v
    cases v <;> simp [CoreAI_ASensor.tick, hpass]
  · intro ts hts
    induction ts with
    | nil => rfl
    | cons t rest ih =>
      have he := hts t (List.mem_cons_self t rest)
      have hstep : CoreAI_AAction.tick ⟨I, t0⟩ t = (⟨I, t0⟩, false) :=
        action_tick_in_window ⟨I, t0⟩ t hI (by
          simp only
          linarith [he.2])
      have hrest := ih fun x hx => hts x (List.mem_cons_of_mem t hx)
      simp [CoreAI_AAction.run, hstep, hrest]
  · simp [CoreAI_AAction.tick, hpass, hI]
  · intro ts hts
    induction ts with
    | nil => rfl
    | cons t rest ih =>
      have he := hts t (List.mem_cons_self t rest)
      have hstep : CoreAI_ABehavior.tick ⟨I, t0⟩ t = (⟨I, t0⟩, false) :=
        behavior_tick_in_window ⟨I, t0⟩ t hI (by
          simp only
          linarith [he.2])
      have hrest := ih fun x hx => hts x (List.mem_cons_of_mem t hx)
      simp [CoreAI_ABehavior.run, hstep, hrest]
  · simp [CoreAI_ABehavior.tick, hpass, hI]

/-- C5 (witness): interval 100, last fired at 0, ticked at 0, 1, 50 and
99 with the window never consumed, then fired exactly at 100. -/
theorem throttle_window_spec_witness :
    CoreAI_ASensor.run ⟨100, 0⟩ [(0, true), (1, true), (50, false), (99, true)] =
      (⟨100, 0⟩, false) ∧
    CoreAI_ASensor.tick ⟨100, 0⟩ 100 true = (⟨100, 100⟩, true) ∧
    CoreAI_AAction.run ⟨100, 0⟩ [0, 1, 50, 99] = (⟨100, 0⟩, false) ∧
    CoreAI_AAction.tick ⟨100, 0⟩ 100 = (⟨100, 100⟩, true) ∧
    CoreAI_ABehavior.run ⟨100, 0⟩ [0, 1, 50, 99] = (⟨100, 0⟩, false) ∧
    CoreAI_ABehavior.tick ⟨100, 0⟩ 100 = (⟨100, 100⟩, true) := by
  have h := throttle_window_spec 100 0 (by norm_num)
  have hw : ∀ e ∈ [((0:ℚ), true), (1, true), (50, false), (99, true)],
      (0:ℚ) ≤ e.1 ∧ e.1 < 0 + 100 := by
    intro e he
    fin_cases he <;> norm_num
  have hq : ∀ t ∈ [(0:ℚ), 1, 50, 99], (0:ℚ) ≤ t ∧ t < 0 + 100 := by
    intro t ht
    fin_cases ht <;> norm_num
  have h100 : (100 : ℚ) = 0 + 100 := by norm_num
  refine ⟨h.1 _ hw, ?_, h.2.2.1 _ hq, ?_, h.2.2.2.2.1 _ hq, ?_⟩
  · rw [h100]
    simpa using h.2.1 true
  · rw [h100]
    simpa using h.2.2.2.1
  · rw [h100]
    simpa using h.2.2.2.2.2

/-- Characterization of the scoring loop: from accumulator `(be, bs)` it
either returns the accumulator unchanged (when no score exceeds `bs`),
or returns the first entry attaining the maximum score among those
exceeding `bs`. -/
theorem bestLoop_char (brain : BrainView) :
    ∀ (xs : List CoreAI_ITaskScoringEntry)
      (be : Option CoreAI_ITaskScoringEntry) (bs : WithBot ℚ),
      (CoreAI_TaskSelector.bestLoop brain xs (be, bs) = (be, bs) ∧
        ∀ j : Fin xs.length, ((xs.get j).score brain : WithBot ℚ) ≤ bs) ∨
      (∃ i : Fin xs.length,
        CoreAI_TaskSelector.bestLoop brain xs (be, bs) =
          (some (xs.get i), ((xs.get i).score brain : WithBot ℚ)) ∧
        bs < ((xs.get i).score brain : WithBot ℚ) ∧
        (∀ j : Fin xs.length, ((xs.get j).score brain : WithBot ℚ) ≤
          ((xs.get i).score brain : WithBot ℚ)) ∧
        (∀ j : Fin xs.length, (j : ℕ) < (i : ℕ) →
          ((xs.get j).score brain : WithBot ℚ) <
            ((xs.get i).score brain : WithBot ℚ))) := by
  intro xs
  induction xs with
  | nil => exact fun be bs => Or.inl ⟨rfl, fun j => j.elim0⟩
  | cons x xs ih =>
    intro be bs
    by_cases hlt : bs < ((x.score brain : ℚ) : WithBot ℚ)
    · have hstep : CoreAI_TaskSelector.bestLoop brain (x :: xs) (be, bs) =
          CoreAI_TaskSelector.bestLoop brain xs
            (some x, ((x.score brain : ℚ) : WithBot ℚ)) := by
        simp [CoreAI_TaskSelector.bestLoop, hlt]
      rcases ih (some x) ((x.score brain : ℚ) : WithBot ℚ) with
        ⟨heq, hall⟩ | ⟨i, heq, hgt, hmax, hfirst⟩
      · right
        refine ⟨⟨0, Nat.succ_pos _⟩, ?_, hlt, ?_, ?_⟩
        · rw [hstep, heq]
          rfl
        · intro j
          refine Fin.cases ?_ ?_ j
          · exact le_refl _
          · exact fun k => hall k
        · intro j hj
          exact absurd hj (Nat.not_lt_zero _)
      · right
        refine ⟨i.succ, ?_, lt_trans hlt hgt, ?_, ?_⟩
        · rw [hstep, heq]
          rfl
        · intro j
          refine Fin.cases ?_ ?_ j
          · exact le_of_lt hgt
          · exact fun k => hmax k
        · intro j
          refine Fin.cases ?_ ?_ j
          · exact fun _ => hgt
          · intro k hk
            exact hfirst k (Nat.lt_of_succ_lt_succ hk)
    · have hstep : CoreAI_TaskSelector.bestLoop brain (x :: xs) (be, bs) =
          CoreAI_TaskSelector.bestLoop brain xs (be, bs) := by
        simp [CoreAI_TaskSelector.bestLoop, hlt]
      have hle : ((x.score brain : ℚ) : WithBot ℚ) ≤ bs := not_lt.mp hlt
      rcases ih be bs with ⟨heq, hall⟩ | ⟨i, heq, hgt, hmax, hfirst⟩
      · left
        refine ⟨by rw [hstep, heq], ?_⟩
        intro j
        refine Fin.cases ?_ ?_ j
        · exact hle
        · exact fun k => hall k
      · right
        refine ⟨i.succ, by rw [hstep, heq]; rfl, hgt, ?_, ?_⟩
        · intro j
          refine Fin.cases ?_ ?_ j
          · exact le_trans hle (le_of_lt hgt)
          · exact fun k => hmax k
        · intro j
          refine Fin.cases ?_ ?_ j
          · exact fun _ => lt_of_le_of_lt hle hgt
          · intro k hk
            exact hfirst k (Nat.lt_of_succ_lt_succ hk)

/-- A trivial engine world for concrete selector scenarios. -/
def exWorld : ProfileWorld where
  playerPos := fun _ => ⟨0, 0, 0⟩
  soldierPos := fun _ => ⟨0, 0, 0⟩
  vehiclePos := fun _ => ⟨10, 0, 0⟩
  distanceBetween := fun a b => |a.x - b.x| + |a.y - b.y| + |a.z - b.z|

/-- A concrete brain view over an empty memory. -/
def brainEmptyEx : BrainView :=
  ⟨CoreAI_MemoryManager.init, exWorld, 0⟩

/-- A concrete Idle behavior instance. -/
def idleInstEx : BehaviorInst := { id := 0, cls := .Idle }

/-- C2: `chooseNextBehavior` selects the entry with the strictly highest
score over the table (first entry wins ties, table order): for a
nonempty table there is a winning index i whose score weakly dominates
all entries and strictly dominates all earlier ones, and the result is
the class/stability resolution of that entry when its score is positive;
when the best score is ≤ 0 or the table is empty, the result is the Idle
fallback — the current instance if it is an Idle instance, else a fresh
Idle instance. -/
theorem chooseNextBehavior_spec (scoring : List CoreAI_ITaskScoringEntry)
    (brain : BrainView) (current : BehaviorInst) (env : JsEnv) :
    (CoreAI_TaskSelector.idleFallback current env =
      if current.cls = .Idle then current else mkIdle env) ∧
    (scoring = [] →
      CoreAI_TaskSelector.chooseNextBehavior scoring brain current env =
        CoreAI_TaskSelector.idleFallback current env) ∧
    (scoring ≠ [] → ∃ i : Fin scoring.length,
      (∀ j : Fin scoring.length,
        (scoring.get j).score brain ≤ (scoring.get i).score brain) ∧
      (∀ j : Fin scoring.length, (j : ℕ) < (i : ℕ) →
        (scoring.get j).score brain < (scoring.get i).score brain) ∧
      ((scoring.get i).score brain ≤ 0 →
        CoreAI_TaskSelector.chooseNextBehavior scoring brain current env =
          CoreAI_TaskSelector.idleFallback current env) ∧
      (0 < (scoring.get i).score brain →
        CoreAI_TaskSelector.chooseNextBehavior scoring brain current env =
          CoreAI_TaskSelector.resolveWinner (scoring.get i) brain current
            env)) := by
  refine ⟨rfl, ?_, ?_⟩
  · intro h
    subst h
    rfl
  · intro hne
    rcases bestLoop_char brain scoring none ⊥ with
      ⟨_, hall⟩ | ⟨i, heq, _, hmax, hfirst⟩
    · have h0 : 0 < scoring.length := List.length_pos.mpr hne
      exact absurd (hall ⟨0, h0⟩) (by simp)
    · refine ⟨i, fun j => WithBot.coe_le_coe.mp (hmax j),
        fun j hj => WithBot.coe_lt_coe.mp (hfirst j hj), ?_, ?_⟩
      · intro h0
        have h0' : ((scoring.get i).score brain : WithBot ℚ) ≤ 0 := by
          exact_mod_cast h0
        simp only [CoreAI_TaskSelector.chooseNextBehavior, heq]
        rw [if_pos h0']
      · intro h0
        have h0' : ¬ ((scoring.get i).score brain : WithBot ℚ) ≤ 0 := by
          rw [not_le]
          exact_mod_cast h0
        simp only [CoreAI_TaskSelector.chooseNextBehavior, heq]
        rw [if_neg h0']

/-- C2 (witness): with an empty scoring table and a non-Idle current
instance, the selector answers the Idle fallback (here a freshly
allocated Idle instance). -/
theorem chooseNextBehavior_spec_witness :
    CoreAI_TaskSelector.chooseNextBehavior [] brainEmptyEx
        { id := 5, cls := .Fight } ⟨7, 0⟩ =
      CoreAI_TaskSelector.idleFallback { id := 5, cls := .Fight } ⟨7, 0⟩ :=
  (chooseNextBehavior_spec [] brainEmptyEx { id := 5, cls := .Fight }
    ⟨7, 0⟩).2.1 rfl

/-- The selector's retain paths: either the best score is ≤ 0 (or the
table is empty) and the current instance is Idle, or the winning entry
resolves to the current instance's exact class and its stability
predicate is absent or returns true. -/
def RetainPath (scoring : List CoreAI_ITaskScoringEntry)
    (brain : BrainView) (current : BehaviorInst) : Prop :=
  ((CoreAI_TaskSelector.bestLoop brain scoring (none, ⊥)).2 ≤ 0 ∧
    current.cls = .Idle) ∨
  (∃ (e : CoreAI_ITaskScoringEntry) (s : ℚ),
    CoreAI_TaskSelector.bestLoop brain scoring (none, ⊥) =
      (some e, (s : WithBot ℚ)) ∧ 0 < s ∧
    (∃ f, e.behaviorClass = some f ∧ f brain = current.cls) ∧
    (e.isSame = none ∨
      ∃ p, e.isSame = some p ∧ p brain current = true))

/-- On a retain path, `chooseNextBehavior` returns the current instance
itself, for every allocation/random environment. -/
theorem chooseNextBehavior_retains (scoring : List CoreAI_ITaskScoringEntry)
    (brain : BrainView) (current : BehaviorInst)
    (h : RetainPath scoring brain current) (env : JsEnv) :
    CoreAI_TaskSelector.chooseNextBehavior scoring brain current env =
      current := by
  unfold RetainPath at h
  rcases h with ⟨hle, hidle⟩ | ⟨e, s, heq, hpos, ⟨f, hf, hfc⟩, hsame⟩
  · rcases hbl : CoreAI_TaskSelector.bestLoop brain scoring (none, ⊥) with
      ⟨be, bs⟩
    rw [hbl] at hle
    cases be with
    | none =>
      simp only [CoreAI_TaskSelector.chooseNextBehavior, hbl,
        CoreAI_TaskSelector.idleFallback, hidle, if_true]
    | some e =>
      simp only [CoreAI_TaskSelector.chooseNextBehavior, hbl]
      rw [if_pos hle]
      simp [CoreAI_TaskSelector.idleFallback, hidle]
  · have hnle : ¬ ((s : WithBot ℚ) ≤ 0) := by
      rw [not_le]
      exact_mod_cast hpos
    simp only [CoreAI_TaskSelector.chooseNextBehavior, heq]
    rw [if_neg hnle]
    simp only [CoreAI_TaskSelector.resolveWinner, hf, hfc]
    rcases hsame with hnone | ⟨p, hp, hpt⟩
    · simp [hnone]
    · simp [hp, hpt]

/-- C4: whenever the winning entry's resolved behavior class equals the
current instance's exact class and its stability predicate is absent or
returns true, `chooseNextBehavior` returns the current instance itself,
and the subsequent `BehaviorController.change` is a no-op: no `exit()`
and no `enter()` is invoked that tick. -/
theorem stability_suppresses_reenter
    (scoring : List CoreAI_ITaskScoringEntry) (brain : BrainView)
    (current : BehaviorInst) (env : JsEnv)
    (e : CoreAI_ITaskScoringEntry) (s : ℚ)
    (hbest : CoreAI_TaskSelector.bestLoop brain scoring (none, ⊥) =
      (some e, (s : WithBot ℚ)))
    (hpos : 0 < s)
    (hcls : ∃ f, e.behaviorClass = some f ∧ f brain = current.cls)
    (hsame : e.isSame = none ∨
      ∃ p, e.isSame = some p ∧ p brain current = true) :
    CoreAI_TaskSelector.chooseNextBehavior scoring brain current env =
      current ∧
    CoreAI_BehaviorController.change current
        (CoreAI_TaskSelector.chooseNextBehavior scoring brain current
          env) =
      (current, []) := by
  have h := chooseNextBehavior_retains scoring brain current
    (Or.inr ⟨e, s, hbest, hpos, hcls, hsame⟩) env
  refine ⟨h, ?_⟩
  rw [h]
  simp [CoreAI_BehaviorController.change]

/-- A concrete memory whose only non-empty field is `isInBattle`. -/
def memBattleEx : CoreAI_MemoryManager where
  time := 0
  data := fun k =>
    if k = .isInBattle then .vbool true else CoreAI_MemoryManager.emptyData k
  expirations := fun _ => none

/-- A concrete brain view in which `isInBattle` is set. -/
def brainBattleEx : BrainView := ⟨memBattleEx, exWorld, 0⟩

/-- A concrete Fight behavior instance. -/
def fightInstEx : BehaviorInst := { id := 0, cls := .Fight }

/-- C4 (witness): with a table holding only the base profile's fight
row, `isInBattle` truthy, and a current Fight instance, the selector
keeps the instance and the controller transition emits no lifecycle
calls. -/
theorem stability_suppresses_reenter_witness :
    CoreAI_TaskSelector.chooseNextBehavior [CoreAI_BaseProfile.fightEntry]
        brainBattleEx fightInstEx ⟨3, 0⟩ = fightInstEx ∧
    CoreAI_BehaviorController.change fightInstEx
        (CoreAI_TaskSelector.chooseNextBehavior
          [CoreAI_BaseProfile.fightEntry] brainBattleEx fightInstEx
          ⟨3, 0⟩) =
      (fightInstEx, []) := by
  have hbest : CoreAI_TaskSelector.bestLoop brainBattleEx
      [CoreAI_BaseProfile.fightEntry] (none, ⊥) =
      (some CoreAI_BaseProfile.fightEntry, ((200 : ℚ) : WithBot ℚ)) := by
    simp [CoreAI_TaskSelector.bestLoop, CoreAI_BaseProfile.fightEntry,
      CoreAI_MemoryManager.get, MVal.truthy, brainBattleEx, memBattleEx]
  exact stability_suppresses_reenter [CoreAI_BaseProfile.fightEntry]
    brainBattleEx fightInstEx ⟨3, 0⟩ CoreAI_BaseProfile.fightEntry 200
    hbest (by norm_num) ⟨fun _ => .Fight, rfl, rfl⟩ (Or.inl rfl)

/-- A concrete memory whose only non-empty field is `vehicleToDrive`. -/
def memVehEx : CoreAI_MemoryManager where
  time := 0
  data := fun k =>
    if k = .vehicleToDrive then .vref 3
    else CoreAI_MemoryManager.emptyData k
  expirations := fun _ => none

/-- A concrete brain view in which `vehicleToDrive` holds vehicle 3 at
distance 10 from the agent. -/
def brainVehEx : BrainView := ⟨memVehEx, exWorld, 0⟩

/-- C7 (counterexample): with the base profile, a fixed memory snapshot
(`vehicleToDrive` set, vehicle at distance 10) and a fixed current Idle
instance, two `chooseNextBehavior` calls that differ only in the hidden
JS inputs (here the `Math.random()` draw consumed by the winning entry's
factory) return different instances, so the selector is not a pure
function of (memory, current instance) alone. -/
theorem chooseNextBehavior_not_pure_cex :
    CoreAI_TaskSelector.chooseNextBehavior CoreAI_BaseProfile.scoring
        brainVehEx idleInstEx ⟨1, 1/2⟩ ≠
      CoreAI_TaskSelector.chooseNextBehavior CoreAI_BaseProfile.scoring
        brainVehEx idleInstEx ⟨1, 9/10⟩ := by
  have hbest : CoreAI_TaskSelector.bestLoop brainVehEx
      CoreAI_BaseProfile.scoring (none, ⊥) =
      (some CoreAI_BaseProfile.vehicleToDriveEntry,
        ((290 : ℚ) : WithBot ℚ)) := by
    simp +decide only [CoreAI_TaskSelector.bestLoop,
      CoreAI_BaseProfile.scoring, CoreAI_BaseProfile.fightEntry,
      CoreAI_BaseProfile.closestEnemyEntry,
      CoreAI_BaseProfile.vehicleToDriveEntry,
      CoreAI_BaseProfile.arrivedPosEntry, CoreAI_BaseProfile.roamPosEntry,
      CoreAI_MemoryManager.get, CoreAI_MemoryManager.emptyData,
      MVal.truthy, memVehEx, brainVehEx]
    norm_num [WithBot.bot_lt_coe, WithBot.coe_lt_coe]
  have hresolve : ∀ env : JsEnv,
      CoreAI_TaskSelector.chooseNextBehavior CoreAI_BaseProfile.scoring
        brainVehEx idleInstEx env =
      mkMoveTo env ⟨10, 0, 0⟩
        (if env.rand < 7/10 then .Sprint else .Run) (some false) := by
    intro env
    simp only [CoreAI_TaskSelector.chooseNextBehavior, hbest]
    rw [if_neg (by norm_num)]
    simp +decide only [CoreAI_TaskSelector.resolveWinner,
      CoreAI_BaseProfile.vehicleToDriveEntry,
      CoreAI_BaseProfile.getVehicleToDriveInfo, CoreAI_MemoryManager.get,
      MVal.refId, memVehEx, brainVehEx, exWorld, idleInstEx]
    norm_num
  intro hcontra
  rw [hresolve ⟨1, 1/2⟩, hresolve ⟨1, 9/10⟩] at hcontra
  have hspeed := congrArg BehaviorInst.speed hcontra
  norm_num [mkMoveTo] at hspeed
  exact MoveSpeed.noConfusion hspeed

/-- C7 (amended): the selector is deterministic only given its hidden JS
inputs as well: on the retain paths (best score ≤ 0 with an Idle current
instance, or a stable winner of the current instance's class) it returns
the current instance itself for every allocation/random environment, so
repeated calls agree; on the switch path the winning entry's factory
allocates a fresh instance and (in the base profile) consults a random
draw, so repeated calls may differ (see the counterexample). -/
theorem chooseNextBehavior_retain_deterministic
    (scoring : List CoreAI_ITaskScoringEntry) (brain : BrainView)
    (current : BehaviorInst) (env env' : JsEnv)
    (h : RetainPath scoring brain current) :
    CoreAI_TaskSelector.chooseNextBehavior scoring brain current env =
      current ∧
    CoreAI_TaskSelector.chooseNextBehavior scoring brain current env' =
      current ∧
    CoreAI_TaskSelector.chooseNextBehavior scoring brain current env =
      CoreAI_TaskSelector.chooseNextBehavior scoring brain current
        env' := by
  have h1 := chooseNextBehavior_retains scoring brain current h env
  have h2 := chooseNextBehavior_retains scoring brain current h env'
  exact ⟨h1, h2, h1.trans h2.symm⟩

/-- C7 (witness for the amended theorem): empty table, Idle current
instance, two different environments. -/
theorem chooseNextBehavior_retain_deterministic_witness :
    CoreAI_TaskSelector.chooseNextBehavior [] brainEmptyEx idleInstEx
        ⟨1, 1/2⟩ = idleInstEx ∧
    CoreAI_TaskSelector.chooseNextBehavior [] brainEmptyEx idleInstEx
        ⟨2, 9/10⟩ = idleInstEx ∧
    CoreAI_TaskSelector.chooseNextBehavior [] brainEmptyEx idleInstEx
        ⟨1, 1/2⟩ =
      CoreAI_TaskSelector.chooseNextBehavior [] brainEmptyEx idleInstEx
        ⟨2, 9/10⟩ :=
  chooseNextBehavior_retain_deterministic [] brainEmptyEx idleInstEx
    ⟨1, 1/2⟩ ⟨2, 9/10⟩ (Or.inl ⟨bot_le, rfl⟩)

/-- C6: on an eligible update with a valid player and a valid nearest
enemy: if the nearest enemy is the stored one, no write happens;
otherwise the sensor writes the enemy with TTL iff the uniform draw is
not above `exp(-0.12 · dist / sensitivity)`; at distance 0 with
sensitivity 1 that probability is 1, so any draw in [0, 1) — the range
of `Math.random()` — results in the write. -/
theorem closestEnemy_gate_spec (w : EnemyWorld) (sensitivity : ℝ)
    (ttlMs : ℚ) (player : Nat) (m : CoreAI_MemoryManager) (rand : ℝ)
    (newEnemy : Nat) (dist : ℝ)
    (hv : w.isPlayerValid player = true)
    (hne : newEnemy = w.closestPlayerTo (w.objectPos player)
      (if w.teamId player = 1 then 2 else 1))
    (hve : w.isPlayerValid newEnemy = true)
    (hd : dist = w.distanceBetween (w.objectPos player)
      (w.objectPos newEnemy)) :
    (m.get .closestEnemy = .vref newEnemy →
      CoreAI_ClosestEnemySensor.update w sensitivity ttlMs player m rand =
        m) ∧
    (m.get .closestEnemy ≠ .vref newEnemy →
      (¬ rand > CoreAI_ClosestEnemySensor.detectionProb dist sensitivity →
        CoreAI_ClosestEnemySensor.update w sensitivity ttlMs player m
            rand =
          m.set .closestEnemy (.vref newEnemy) (some ttlMs)) ∧
      (rand > CoreAI_ClosestEnemySensor.detectionProb dist sensitivity →
        CoreAI_ClosestEnemySensor.update w sensitivity ttlMs player m
            rand =
          m)) ∧
    (dist = 0 → sensitivity = 1 →
      CoreAI_ClosestEnemySensor.detectionProb dist sensitivity = 1) ∧
    (dist = 0 → sensitivity = 1 →
      m.get .closestEnemy ≠ .vref newEnemy → 0 ≤ rand → rand < 1 →
      CoreAI_ClosestEnemySensor.update w sensitivity ttlMs player m rand =
        m.set .closestEnemy (.vref newEnemy) (some ttlMs)) := by
  subst hne
  subst hd
  have hprob1 : ∀ s : ℝ, s = 1 →
      w.distanceBetween (w.objectPos player)
        (w.objectPos (w.closestPlayerTo (w.objectPos player)
          (if w.teamId player = 1 then 2 else 1))) = 0 →
      CoreAI_ClosestEnemySensor.detectionProb
        (w.distanceBetween (w.objectPos player)
          (w.objectPos (w.closestPlayerTo (w.objectPos player)
            (if w.teamId player = 1 then 2 else 1)))) s = 1 := by
    intro s hs hz
    rw [hz, hs]
    simp [CoreAI_ClosestEnemySensor.detectionProb]
  refine ⟨?_, ?_, fun hz hs => hprob1 sensitivity hs hz, ?_⟩
  · intro hsame
    simp [CoreAI_ClosestEnemySensor.update, hv, hve, hsame,
      CoreAI_MemoryManager.get] at hsame ⊢
    simp [hsame]
  · intro hdiff
    rw [CoreAI_MemoryManager.get] at hdiff
    constructor
    · intro hgate
      rw [not_lt] at hgate
      simp [CoreAI_ClosestEnemySensor.update, hv, hve,
        CoreAI_MemoryManager.get]
      rw [if_neg hdiff, if_neg (not_lt.mpr hgate)]
    · intro hgate
      simp [CoreAI_ClosestEnemySensor.update, hv, hve,
        CoreAI_MemoryManager.get]
      intro _ hle
      exact absurd hle (not_le.mpr hgate)
  · intro hz hs hdiff h0 h1
    rw [CoreAI_MemoryManager.get] at hdiff
    have hp := hprob1 sensitivity hs hz
    have hgate : ¬ CoreAI_ClosestEnemySensor.detectionProb
        (w.distanceBetween (w.objectPos player)
          (w.objectPos (w.closestPlayerTo (w.objectPos player)
            (if w.teamId player = 1 then 2 else 1)))) sensitivity <
        rand := by
      rw [hp, not_lt]
      exact le_of_lt h1
    simp [CoreAI_ClosestEnemySensor.update, hv, hve,
      CoreAI_MemoryManager.get]
    rw [if_neg hdiff, if_neg hgate]

/-- A concrete enemy world: everyone valid, all positions at the origin
(distance 0), the nearest enemy is player 7. -/
def enemyWorldEx : EnemyWorld where
  isPlayerValid := fun _ => true
  objectPos := fun _ => ⟨0, 0, 0⟩
  teamId := fun _ => 1
  closestPlayerTo := fun _ _ => 7
  distanceBetween := fun _ _ => 0

/-- C6 (witness): at distance 0 with sensitivity 1 the probability is 1
and a draw of 1/2 results in the write. -/
theorem closestEnemy_gate_spec_witness :
    CoreAI_ClosestEnemySensor.detectionProb 0 1 = 1 ∧
    CoreAI_ClosestEnemySensor.update enemyWorldEx 1 8000 0
        CoreAI_MemoryManager.init (1/2) =
      CoreAI_MemoryManager.init.set .closestEnemy (.vref 7)
        (some 8000) := by
  have h := closestEnemy_gate_spec enemyWorldEx 1 8000 0
    CoreAI_MemoryManager.init (1/2) 7 0 rfl rfl rfl rfl
  exact ⟨h.2.2.1 rfl rfl,
    h.2.2.2 rfl rfl (by decide) (by norm_num) (by norm_num)⟩
